import Mathlib

/-!
Verification of the tesla-alert inventory checker (src/check.js, with a
second variant in src/unnamed/part_000).

The JavaScript program is shallowly embedded: JS numbers are modelled by
`JSNum` (an exact rational for finite values, plus NaN and the two
infinities), JS values by the inductive `JSVal`, and each source function
by a Lean definition of the same name.  `parseFloat` is modelled exactly
over rationals (no double rounding or overflow), which is the standard
idealisation for decimal numerals; a doc comment marks every place where
a host-platform behaviour (Unicode case mapping, Intl formatting,
number-to-string rendering) is approximated.
-/

namespace TeslaAlert

/-- A JavaScript number: a finite value (modelled as an exact rational),
NaN, or one of the two infinities. -/
inductive JSNum where
  | fin : ℚ → JSNum
  | nan : JSNum
  | inf : JSNum
  | negInf : JSNum
deriving DecidableEq

/-- `Number.isFinite` on a JS number. -/
def JSNum.isFinite : JSNum → Bool
  | .fin _ => true
  | _ => false

/-- The JS `<` comparison on numbers: false whenever either side is
NaN, otherwise the usual order with the infinities at the ends.
`a > b` in JS is `jsLt b a`. -/
def jsLt : JSNum → JSNum → Bool
  | .nan, _ => false
  | _, .nan => false
  | .fin a, .fin b => decide (a < b)
  | .negInf, .negInf => false
  | .negInf, _ => true
  | _, .negInf => false
  | .inf, _ => false
  | .fin _, .inf => true

/-- A JavaScript value as it can appear in a parsed inventory record:
number, string, boolean, null, undefined, plain object (association
list of fields, first binding wins on lookup) or array. -/
inductive JSVal where
  | num : JSNum → JSVal
  | str : String → JSVal
  | bool : Bool → JSVal
  | null : JSVal
  | undefined : JSVal
  | obj : List (String × JSVal) → JSVal
  | arr : List JSVal → JSVal

/-- Truthiness of a JS number: `0` and `NaN` are falsy, every other
number (including the infinities) is truthy. -/
def numTruthy : JSNum → Bool
  | .fin q => decide (q ≠ 0)
  | .nan => false
  | .inf => true
  | .negInf => true

/-- JavaScript truthiness. -/
def truthy : JSVal → Bool
  | .num n => numTruthy n
  | .str s => decide (s ≠ "")
  | .bool b => b
  | .null => false
  | .undefined => false
  | .obj _ => true
  | .arr _ => true

/-- Property access `o[k]` (also covering the optional-chained
`o?.[k]` on a missing object): `undefined` unless `o` is an object
with field `k`. -/
def getField : JSVal → String → JSVal
  | .obj fs, k =>
    match fs.find? (fun p => p.1 == k) with
    | some p => p.2
    | none => .undefined
  | _, _ => .undefined

/-- `a || b`: the first operand when truthy, otherwise the second. -/
def jsOr (a b : JSVal) : JSVal := if truthy a then a else b

/-- `a ?? b`: the first operand unless it is null or undefined. -/
def nullish (a b : JSVal) : JSVal :=
  match a with
  | .null => b
  | .undefined => b
  | v => v

/-- `pick(obj, path)` from check.js line 82: walk the path, stepping
through a key only when the accumulator is truthy
(`path.reduce((o, k) => (o ? o[k] : undefined), obj)`). -/
def pick (o : JSVal) (path : List String) : JSVal :=
  path.foldl (fun acc k => if truthy acc then getField acc k else .undefined) o

/-- The characters kept by `v.replace(/[^\d.]/g, "")`: decimal digits
and the full stop. -/
def keptChar (c : Char) : Bool := c.isDigit || c == '.'

/-- `v.replace(/[^\d.]/g, "")` as a character list. -/
def stripChars (s : String) : List Char := s.toList.filter keptChar

/-- Numeric value of a list of decimal digit characters. -/
def digitsNat (l : List Char) : ℕ :=
  l.foldl (fun n c => 10 * n + (c.toNat - 48)) 0

/-- The fractional digits consumed after the integer part: a leading
dot followed by the longest digit run, nothing otherwise. -/
def fracPart (cs : List Char) : List Char :=
  match cs with
  | c :: t => if c == '.' then t.takeWhile Char.isDigit else []
  | [] => []

/-- `parseFloat` restricted to the digit/dot strings produced by
`stripChars` (the only strings `numberFrom` feeds it): the longest
prefix of the form digits, optionally a dot and more digits, is
consumed; if that prefix holds no digit the result is NaN (`none`).
Parsing is exact over rationals; double rounding and overflow to
Infinity are not modelled. -/
def parseNum (cs : List Char) : Option ℚ :=
  let intD := cs.takeWhile Char.isDigit
  let fracD := fracPart (cs.drop intD.length)
  if intD.isEmpty && fracD.isEmpty then none
  else some ((digitsNat intD : ℚ) + (digitsNat fracD : ℚ) / 10 ^ fracD.length)

/-- `numberFrom` from check.js lines 73-80: numbers pass through
unchanged; strings are stripped to digits and dots, parsed, and kept
only when finite; every other value yields null (`none`). -/
def numberFrom : JSVal → Option JSNum
  | .num n => some n
  | .str s =>
    let n : JSNum :=
      match parseNum (stripChars s) with
      | some q => .fin q
      | none => .nan
    if n.isFinite then some n else none
  | _ => none

/-- The four flat price candidates of `extractPrice` (check.js line 88),
in source order. -/
def priceKeys : List String :=
  ["PurchasePrice", "Price", "TotalPrice", "TotalPriceAndFees"]

/-- The loop body shared by `extractPrice`: return the first candidate
key whose value coerces to a JS number (`typeof n === "number"`),
otherwise null. -/
def firstCoerced (item : JSVal) : List String → Option JSNum
  | [] => none
  | k :: ks =>
    match numberFrom (getField item k) with
    | some n => some n
    | none => firstCoerced item ks

/-- `extractPrice` from check.js lines 87-94. -/
def extractPrice (item : JSVal) : Option JSNum :=
  firstCoerced item priceKeys

/-- The nine range candidate paths of `extractRangeKm`
(check.js lines 97-107), in source order. -/
def rangePaths : List (List String) :=
  [["Range"],
   ["WLTPRange"],
   ["BatteryRange"],
   ["EUCombinedRange"],
   ["Spec", "Range"],
   ["Spec", "WLTPRange"],
   ["Spec", "EUCombinedRange"],
   ["Spec", "wltp_range"],
   ["Spec", "range"]]

/-- First path whose `pick`ed value coerces to a JS number. -/
def firstCoercedPath (item : JSVal) : List (List String) → Option JSNum
  | [] => none
  | p :: ps =>
    match numberFrom (pick item p) with
    | some n => some n
    | none => firstCoercedPath item ps

/-- One atom of the regular expressions used by the range fallback:
either a literal character or a greedy star over a character class.
The three patterns only ever place a star directly before a literal
outside the class, so greedy matching without backtracking is exact. -/
inductive RePiece where
  | lit : Char → RePiece
  | star : (Char → Bool) → RePiece

/-- The literal pieces of a string. -/
def litsOf (s : String) : List RePiece := s.toList.map RePiece.lit

/-- Drop the longest run of class characters (greedy star). -/
def dropClass (p : Char → Bool) : List Char → List Char
  | [] => []
  | c :: cs => if p c then dropClass p cs else c :: cs

/-- Match a piece sequence at the head of the input, returning the
remaining input on success. -/
def matchPieces : List RePiece → List Char → Option (List Char)
  | [], cs => some cs
  | .lit c :: ps, d :: cs => if c == d then matchPieces ps cs else none
  | .lit _ :: _, [] => none
  | .star p :: ps, cs => matchPieces ps (dropClass p cs)

/-- A regex word character, `[A-Za-z0-9_]`. -/
def wordChar (c : Char) : Bool := c.isAlphanum || c == '_'

/-- Whitespace as matched by the JS `\s` class (the code points that
can occur in the ASCII trim labels at issue). -/
def isJsSpace (c : Char) : Bool :=
  c == ' ' || c == '\t' || c == '\n' || c == '\r' ||
  c == '\x0b' || c == '\x0c'

/-- No word character on the left of a match position. -/
def prevNonWord : Option Char → Bool
  | none => true
  | some c => !wordChar c

/-- No word character on the right of a match position. -/
def headNonWord : List Char → Bool
  | [] => true
  | c :: _ => !wordChar c

/-- Scan the input for a match of one of the alternatives, each of
which begins and ends with a word character; when `withB` is set the
surrounding `\b` anchors are enforced via the neighbouring
characters. -/
def reScan (withB : Bool) (alts : List (List RePiece)) :
    Option Char → List Char → Bool
  | prev, cs =>
    (alts.any fun a =>
      match matchPieces a cs with
      | some rest => !withB || (prevNonWord prev && headNonWord rest)
      | none => false) ||
    (match cs with
     | [] => false
     | c :: cs2 => reScan withB alts (some c) cs2)

/-- `re.test(s)` for the fallback patterns. -/
def reTest (withB : Bool) (alts : List (List RePiece)) (s : String) : Bool :=
  reScan withB alts none s.toList

/-- Alternatives of `/\b(long\s*range|maximale\s*reichweite|lr)\b/`. -/
def lrAlts : List (List RePiece) :=
  [litsOf "long" ++ [RePiece.star isJsSpace] ++ litsOf "range",
   litsOf "maximale" ++ [RePiece.star isJsSpace] ++ litsOf "reichweite",
   litsOf "lr"]

/-- Alternatives of `/performance/` (no word-boundary anchors). -/
def perfAlts : List (List RePiece) := [litsOf "performance"]

/-- Alternatives of `/\b(standard\s*range|rear[-\s]*wheel|heckantrieb)\b/`. -/
def srAlts : List (List RePiece) :=
  [litsOf "standard" ++ [RePiece.star isJsSpace] ++ litsOf "range",
   litsOf "rear" ++ [RePiece.star (fun c => c == '-' || isJsSpace c)] ++ litsOf "wheel",
   litsOf "heckantrieb"]

/-- `item?.TrimName || item?.Trim || item?.SpecName || ""` (check.js
line 113), before the `.toLowerCase()` call. -/
def trimRaw (item : JSVal) : JSVal :=
  jsOr (jsOr (jsOr (getField item "TrimName") (getField item "Trim"))
    (getField item "SpecName")) (.str "")

/-- `String.prototype.toLowerCase`, for the ASCII labels the fallback
patterns look at (host Unicode case mapping beyond ASCII is not
modelled). -/
def lowerAscii (s : String) : String := .mk (s.toList.map Char.toLower)

/-- The trim-label fallback of `extractRangeKm` (check.js lines
112-117), applied to the value of the `||` chain: lower-case the
label and try the three patterns in order.  Calling `.toLowerCase()`
on a truthy non-string value is a JS TypeError, modelled as
`Except.error`. -/
def rangeFallback (v : JSVal) : Except String (Option JSNum) :=
  match v with
  | .str s =>
    if reTest true lrAlts (lowerAscii s) then .ok (some (.fin 620))
    else if reTest false perfAlts (lowerAscii s) then .ok (some (.fin 560))
    else if reTest true srAlts (lowerAscii s) then .ok (some (.fin 490))
    else .ok none
  | _ => .error "TypeError: trim.toLowerCase is not a function"

/-- `extractRangeKm` from check.js lines 96-118: the nine candidate
paths in order, then the trim-label fallback. -/
def extractRangeKm (item : JSVal) : Except String (Option JSNum) :=
  match firstCoercedPath item rangePaths with
  | some n => .ok (some n)
  | none => rangeFallback (trimRaw item)

/-- The referer page URL constant (check.js line 14). -/
def REFERER_URL : String :=
  "https://www.tesla.com/de_DE/inventory/used/m3?arrangeby=plh&range=0"

/-- The price threshold constant `TARGET_PRICE_EUR` (check.js line 15). -/
def TARGET_PRICE_EUR : ℚ := 29000

/-- The range threshold constant `MIN_RANGE_KM` (check.js line 16). -/
def MIN_RANGE_KM : ℚ := 600

/-- Decimal digits of the fractional part `rem / den`, produced one at
a time; the fuel bounds the expansion (1200 digits), which is exact for
every terminating expansion — in particular for every number a JSON
double can denote — and truncates a repeating one. -/
def fracDigitsStr : ℕ → ℕ → ℕ → String
  | 0, _, _ => ""
  | _ + 1, 0, _ => ""
  | fuel + 1, rem, den =>
    (Nat.digitChar (rem * 10 / den)).toString ++
      fracDigitsStr fuel (rem * 10 % den) den

/-- JS number-to-string coercion: NaN and the infinities print their
names; a finite value prints sign, integer part and, when non-zero,
the fractional expansion.  Exact for terminating decimals; the
exponential notation JS switches to at magnitude 1e21 is not
modelled. -/
def numToString : JSNum → String
  | .nan => "NaN"
  | .inf => "Infinity"
  | .negInf => "-Infinity"
  | .fin q =>
    (if q < 0 then "-" else "") ++ toString (q.num.natAbs / q.den) ++
      (if q.num.natAbs % q.den = 0 then ""
       else "." ++ fracDigitsStr 1200 (q.num.natAbs % q.den) q.den)

mutual

/-- JS string coercion, as applied by template literals and by
`RegExp.test` to a non-string argument. -/
def jsToString : JSVal → String
  | .num n => numToString n
  | .str s => s
  | .bool b => if b then "true" else "false"
  | .null => "null"
  | .undefined => "undefined"
  | .obj _ => "[object Object]"
  | .arr l => arrJoinStr l

/-- `Array.prototype.toString`: elements joined with commas, null and
undefined elements printing as empty. -/
def arrJoinStr : List JSVal → String
  | [] => ""
  | [v] =>
    (match v with
     | .null => ""
     | .undefined => ""
     | w => jsToString w)
  | v :: vs =>
    (match v with
     | .null => ""
     | .undefined => ""
     | w => jsToString w) ++ "," ++ arrJoinStr vs

end

/-- Whether a character-list starts with the given literal characters. -/
def startsWithChars : List Char → List Char → Bool
  | [], _ => true
  | _ :: _, [] => false
  | c :: ps, d :: cs => c == d && startsWithChars ps cs

/-- `/^https?:/.test(href)`: the coerced string starts with `http:` or
`https:` (lower case, colon included). -/
def isHttpAbs (s : String) : Bool :=
  startsWithChars "http:".toList s.toList ||
  startsWithChars "https:".toList s.toList

/-- `item?.PrcUrl || item?.PermaLink || item?.WebUrl || item?.permalink`
(check.js line 121). -/
def hrefRaw (item : JSVal) : JSVal :=
  jsOr (jsOr (jsOr (getField item "PrcUrl") (getField item "PermaLink"))
    (getField item "WebUrl")) (getField item "permalink")

/-- `item?.VIN || item?.Vin || item?.vin || ""` (check.js line 123). -/
def vinRaw (item : JSVal) : JSVal :=
  jsOr (jsOr (jsOr (getField item "VIN") (getField item "Vin"))
    (getField item "vin")) (.str "")

/-- `itemUrl` from check.js lines 120-125: a truthy href-like field is
returned as-is when it passes `/^https?:/`, and origin-prefixed
otherwise; without one, the referer URL gains a fragment from the
VIN-like fields or the literal `result`. -/
def itemUrl (item : JSVal) : String :=
  if truthy (hrefRaw item) then
    (if isHttpAbs (jsToString (hrefRaw item)) then jsToString (hrefRaw item)
     else "https://www.tesla.com" ++ jsToString (hrefRaw item))
  else
    REFERER_URL ++ "#" ++
      (if truthy (vinRaw item) then jsToString (vinRaw item) else "result")

/-- `fmtEUR` (check.js lines 127-133).  `Intl.NumberFormat` is host
runtime behaviour, not code of this repository; the function is
modelled by its own catch-branch fallback, the plain string
`n + " €"`, which is what the source produces when the locale
facility is unavailable. -/
def fmtEUR (n : JSNum) : String := numToString n ++ " €"

/-- `Math.round`: half-up rounding on finite values, identity on NaN
and the infinities. -/
def jsRound : JSNum → JSNum
  | .fin q => .fin ((⌊q + 1 / 2⌋ : ℤ) : ℚ)
  | x => x

/-- `item?.Odometer ?? item?.Mileage ?? item?.Km` (check.js line 138). -/
def odomChain (item : JSVal) : JSVal :=
  nullish (nullish (getField item "Odometer") (getField item "Mileage"))
    (getField item "Km")

/-- The `odoTxt` segment of the summary (check.js line 139): present
exactly when the coerced odometer value is truthy (a number other
than 0 and NaN). -/
def odoTxt (item : JSVal) : String :=
  match numberFrom (odomChain item) with
  | some n => if numTruthy n then " • " ++ numToString (jsRound n) ++ " km" else ""
  | none => ""

/-- Leading and trailing whitespace removal (`String.prototype.trim`),
over the character list. -/
def trimWs (s : String) : String :=
  .mk (((s.toList.dropWhile Char.isWhitespace).reverse.dropWhile
    Char.isWhitespace).reverse)

/-- The first summary line (check.js line 140): icon, optional year,
fixed model name and trim label, whitespace-trimmed. -/
def summLine1 (item : JSVal) : String :=
  let year := jsOr (jsOr (getField item "Year") (getField item "year")) (.str "")
  let trim := trimRaw item
  trimWs ("🚗 " ++ (if truthy year then jsToString year ++ " " else "") ++
    "Tesla Model 3 " ++ jsToString trim)

/-- The second summary line (check.js line 141): formatted price,
bullet, localized range word with the rounded range and unit, then the
optional odometer segment. -/
def summLine2 (item : JSVal) (price rangeKm : JSNum) : String :=
  fmtEUR price ++ " • Reichweite ~" ++ numToString (jsRound rangeKm) ++ " km" ++
    odoTxt item

/-- `summarize` from check.js lines 135-143: the three lines joined by
newlines. -/
def summarize (item : JSVal) (price rangeKm : JSNum) : String :=
  summLine1 item ++ "\n" ++ summLine2 item price rangeKm ++ "\n" ++ itemUrl item

/-- `data?.results || data?.Results || []` (check.js line 183). -/
def resultsOf (data : JSVal) : JSVal :=
  jsOr (jsOr (getField data "results") (getField data "Results")) (.arr [])

/-- One element of the `matches` array (check.js line 191). -/
structure MatchRec where
  item : JSVal
  price : JSNum
  rangeKm : JSNum

/-- The filter loop of the driver (check.js lines 185-193): per record,
extract price and range, skip the record when either is null, and keep
it when the price is strictly below `TARGET_PRICE_EUR` and the range
strictly above `MIN_RANGE_KM`.  A TypeError thrown by the range
fallback aborts the loop (and the run). -/
def computeMatches : List JSVal → Except String (List MatchRec)
  | [] => .ok []
  | item :: rest =>
    match extractRangeKm item with
    | .error e => .error e
    | .ok rk =>
      match extractPrice item, rk with
      | some p, some r =>
        if jsLt p (.fin TARGET_PRICE_EUR) && jsLt (.fin MIN_RANGE_KM) r then
          match computeMatches rest with
          | .error e => .error e
          | .ok ms => .ok (⟨item, p, r⟩ :: ms)
        else computeMatches rest
      | _, _ => computeMatches rest

/-- Decidable equality for the result type of `extractRangeKm`, used to
evaluate it on concrete records. -/
instance decEqRangeResult : DecidableEq (Except String (Option JSNum)) :=
  fun x y =>
  match x, y with
  | .error a, .error b =>
    if h : a = b then .isTrue (by rw [h])
    else .isFalse (by intro hc; injection hc; contradiction)
  | .ok a, .ok b =>
    if h : a = b then .isTrue (by rw [h])
    else .isFalse (by intro hc; injection hc; contradiction)
  | .error _, .ok _ => .isFalse (by intro hc; exact Except.noConfusion hc)
  | .ok _, .error _ => .isFalse (by intro hc; exact Except.noConfusion hc)

namespace V2

/-- `numberFrom` as defined in src/unnamed/part_000 lines 37-44
(the second variant of the program); its body is the same as the
check.js one and it is re-translated here independently for the
equivalence claim. -/
def numberFrom : JSVal → Option JSNum
  | .num n => some n
  | .str s =>
    let n : JSNum :=
      match parseNum (stripChars s) with
      | some q => .fin q
      | none => .nan
    if n.isFinite then some n else none
  | _ => none

/-- The price candidate keys of part_000 line 51. -/
def priceKeys : List String :=
  ["PurchasePrice", "Price", "TotalPrice", "TotalPriceAndFees"]

/-- The candidate loop of part_000 `extractPrice`. -/
def firstCoerced (item : JSVal) : List String → Option JSNum
  | [] => none
  | k :: ks =>
    match numberFrom (getField item k) with
    | some n => some n
    | none => firstCoerced item ks

/-- `extractPrice` as defined in src/unnamed/part_000 lines 50-57. -/
def extractPrice (item : JSVal) : Option JSNum :=
  firstCoerced item priceKeys

end V2

/-- Statement-side vocabulary: a value is finite-if-numeric (true for
every value a JSON body can contain, since JSON numbers are always
finite). -/
def numFinVal : JSVal → Bool
  | .num m => m.isFinite
  | _ => true

/-- The four href candidate field names probed by `itemUrl`, in source
order. -/
def hrefKeys : List String := ["PrcUrl", "PermaLink", "WebUrl", "permalink"]

/-- The three VIN candidate field names probed by `itemUrl`, in source
order. -/
def vinKeys : List String := ["VIN", "Vin", "vin"]

/-- Helper for `startsWithURLScheme`: scheme characters up to a colon. -/
def schemeTail : List Char → Bool
  | [] => false
  | c :: cs =>
    if c == ':' then true
    else if c.isAlphanum || c == '+' || c == '-' || c == '.' then schemeTail cs
    else false

/-- Statement-side vocabulary (not part of the program): a string
starts with a URL scheme in the RFC 3986 sense — a letter, then
letters, digits, plus, hyphen or dot, then a colon. -/
def startsWithURLScheme (s : String) : Bool :=
  match s.toList with
  | [] => false
  | c :: rest => c.isAlpha && schemeTail rest


/-! ## Helper lemmas -/

lemma takeWhile_all_eq (p : Char → Bool) (a : List Char) (h : a.all p = true) :
    a.takeWhile p = a := by
  induction a with
  | nil => rfl
  | cons c cs ih =>
    simp only [List.all_cons, Bool.and_eq_true] at h
    simp [List.takeWhile_cons, h.1, ih h.2]

lemma takeWhile_append_stop (p : Char → Bool) (a : List Char) (c : Char)
    (l : List Char) (ha : a.all p = true) (hc : p c = false) :
    (a ++ c :: l).takeWhile p = a := by
  induction a with
  | nil => simp [List.takeWhile_cons, hc]
  | cons d ds ih =>
    simp only [List.all_cons, Bool.and_eq_true] at ha
    simp [List.takeWhile_cons, ha.1, ih ha.2]

lemma takeWhile_nil_of_none (p : Char → Bool) (a : List Char)
    (h : a.all (fun c => !p c) = true) : a.takeWhile p = [] := by
  cases a with
  | nil => rfl
  | cons c cs =>
    simp only [List.all_cons, Bool.and_eq_true, Bool.not_eq_true'] at h
    simp [List.takeWhile_cons, h.1]

lemma isEmpty_false_of_ne (a : List Char) (h : a ≠ []) : a.isEmpty = false := by
  cases a with
  | nil => exact absurd rfl h
  | cons c cs => rfl

lemma parseNum_digits (a : List Char) (ha : a.all Char.isDigit = true)
    (hne : a ≠ []) : parseNum a = some ((digitsNat a : ℚ)) := by
  simp only [parseNum]
  rw [takeWhile_all_eq _ _ ha, List.drop_length]
  simp [fracPart, isEmpty_false_of_ne a hne, digitsNat]

lemma parseNum_digits_dot (a b : List Char) (ha : a.all Char.isDigit = true)
    (hb : b.all Char.isDigit = true) (hne : a ++ b ≠ []) :
    parseNum (a ++ '.' :: b) =
      some ((digitsNat a : ℚ) + (digitsNat b : ℚ) / 10 ^ b.length) := by
  simp only [parseNum]
  rw [takeWhile_append_stop _ _ _ _ ha (by decide), List.drop_left]
  simp only [fracPart, beq_self_eq_true, if_true, takeWhile_all_eq _ _ hb]
  by_cases hA : a = []
  · subst hA
    have hBne : b ≠ [] := by simpa using hne
    simp [isEmpty_false_of_ne b hBne, digitsNat]
  · simp [isEmpty_false_of_ne a hA]

lemma parseNum_no_digit (cs : List Char)
    (h : cs.all (fun c => !c.isDigit) = true) : parseNum cs = none := by
  simp only [parseNum]
  rw [takeWhile_nil_of_none _ _ h]
  simp only [List.length_nil, List.drop_zero]
  cases cs with
  | nil => rfl
  | cons c t =>
    simp only [List.all_cons, Bool.and_eq_true] at h
    cases hc : c == '.' with
    | false => simp [fracPart, hc]
    | true => simp [fracPart, hc, takeWhile_nil_of_none _ _ h.2]

lemma numberFrom_str (s : String) :
    numberFrom (.str s) = (parseNum (stripChars s)).map JSNum.fin := by
  unfold numberFrom
  cases h : parseNum (stripChars s) <;> simp [h, JSNum.isFinite]

lemma firstCoerced_append (item : JSVal) (ks1 ks2 : List String)
    (h : ∀ k ∈ ks1, numberFrom (getField item k) = none) :
    firstCoerced item (ks1 ++ ks2) = firstCoerced item ks2 := by
  induction ks1 with
  | nil => rfl
  | cons k ks ih =>
    have hk : numberFrom (getField item k) = none := h k (by simp)
    simp only [List.cons_append, firstCoerced, hk]
    exact ih (fun k2 hm => h k2 (by simp [hm]))

lemma firstCoercedPath_append (item : JSVal) (ps1 ps2 : List (List String))
    (h : ∀ p ∈ ps1, numberFrom (pick item p) = none) :
    firstCoercedPath item (ps1 ++ ps2) = firstCoercedPath item ps2 := by
  induction ps1 with
  | nil => rfl
  | cons p ps ih =>
    have hp : numberFrom (pick item p) = none := h p (by simp)
    simp only [List.cons_append, firstCoercedPath, hp]
    exact ih (fun p2 hm => h p2 (by simp [hm]))

lemma firstCoercedPath_none (item : JSVal) (ps : List (List String))
    (h : ∀ p ∈ ps, numberFrom (pick item p) = none) :
    firstCoercedPath item ps = none := by
  induction ps with
  | nil => rfl
  | cons p ps ih =>
    have hp : numberFrom (pick item p) = none := h p (by simp)
    simp only [firstCoercedPath, hp]
    exact ih (fun p2 hm => h p2 (by simp [hm]))

lemma extractRangeKm_of_path (item : JSVal) (n : JSNum)
    (h : firstCoercedPath item rangePaths = some n) :
    extractRangeKm item = .ok (some n) := by
  unfold extractRangeKm
  rw [h]

lemma extractRangeKm_fallback (item : JSVal)
    (h : firstCoercedPath item rangePaths = none) :
    extractRangeKm item = rangeFallback (trimRaw item) := by
  unfold extractRangeKm
  rw [h]

lemma jsOr_of_falsy (a b : JSVal) (h : truthy a = false) : jsOr a b = b := by
  simp [jsOr, h]

lemma jsOr_of_truthy (a b : JSVal) (h : truthy a = true) : jsOr a b = a := by
  simp [jsOr, h]

lemma jsRound_fin (q c : ℚ) (h : ((⌊q + 1 / 2⌋ : ℤ) : ℚ) = c) :
    jsRound (.fin q) = .fin c := by
  simp only [jsRound, h]

lemma numberFrom_finite (v : JSVal) (n : JSNum) (hv : numFinVal v = true)
    (h : numberFrom v = some n) : n.isFinite = true := by
  cases v with
  | num m =>
    simp only [numberFrom, Option.some.injEq] at h
    subst h
    exact hv
  | str s =>
    rw [numberFrom_str] at h
    cases hp : parseNum (stripChars s) with
    | none => rw [hp] at h; simp at h
    | some q =>
      rw [hp] at h
      have hq : JSNum.fin q = n := by simpa using h
      subst hq
      rfl
  | bool b => exact absurd h (by simp [numberFrom])
  | null => exact absurd h (by simp [numberFrom])
  | undefined => exact absurd h (by simp [numberFrom])
  | obj fs => exact absurd h (by simp [numberFrom])
  | arr l => exact absurd h (by simp [numberFrom])

lemma firstCoerced_finite (item : JSVal) (ks : List String) (n : JSNum)
    (hv : ∀ k ∈ ks, numFinVal (getField item k) = true)
    (h : firstCoerced item ks = some n) : n.isFinite = true := by
  induction ks with
  | nil => exact absurd h (by simp [firstCoerced])
  | cons k ks ih =>
    simp only [firstCoerced] at h
    cases hk : numberFrom (getField item k) with
    | some m =>
      rw [hk] at h
      simp only [Option.some.injEq] at h
      subst h
      exact numberFrom_finite _ _ (hv k (by simp)) hk
    | none =>
      rw [hk] at h
      exact ih (fun k2 hm => hv k2 (by simp [hm])) h

lemma firstCoercedPath_finite (item : JSVal) (ps : List (List String)) (n : JSNum)
    (hv : ∀ p ∈ ps, numFinVal (pick item p) = true)
    (h : firstCoercedPath item ps = some n) : n.isFinite = true := by
  induction ps with
  | nil => exact absurd h (by simp [firstCoercedPath])
  | cons p ps ih =>
    simp only [firstCoercedPath] at h
    cases hp : numberFrom (pick item p) with
    | some m =>
      rw [hp] at h
      simp only [Option.some.injEq] at h
      subst h
      exact numberFrom_finite _ _ (hv p (by simp)) hp
    | none =>
      rw [hp] at h
      exact ih (fun p2 hm => hv p2 (by simp [hm])) h

lemma numberFrom_eq_V2 (v : JSVal) : numberFrom v = V2.numberFrom v := by
  cases v <;> rfl

lemma firstCoerced_eq_V2 (item : JSVal) (ks : List String) :
    firstCoerced item ks = V2.firstCoerced item ks := by
  induction ks with
  | nil => rfl
  | cons k ks ih =>
    simp only [firstCoerced, V2.firstCoerced, numberFrom_eq_V2]
    cases V2.numberFrom (getField item k) <;> simp [ih]

/-! ## Claim theorems -/

/-- Claim C2: for a textual input, `numberFrom` keeps only digit and
decimal-point characters; when the kept characters form a decimal
numeral (digits, optionally one dot and more digits, at least one
digit overall) the result is exactly the rational that numeral
denotes, and when no digit survives the stripping the result is
null. -/
theorem numberFrom_strip_spec (s : String) :
    ((stripChars s).all (fun c => !c.isDigit) = true →
      numberFrom (.str s) = none)
    ∧ (∀ a b : List Char, a.all Char.isDigit = true →
        b.all Char.isDigit = true → a ++ b ≠ [] →
        stripChars s = a ++ '.' :: b →
        numberFrom (.str s) =
          some (.fin ((digitsNat a : ℚ) + (digitsNat b : ℚ) / 10 ^ b.length)))
    ∧ (∀ a : List Char, a ≠ [] → a.all Char.isDigit = true →
        stripChars s = a →
        numberFrom (.str s) = some (.fin ((digitsNat a : ℚ)))) := by
  refine ⟨fun h => ?_, fun a b ha hb hne hs => ?_, fun a hne ha hs => ?_⟩
  · rw [numberFrom_str, parseNum_no_digit _ h]; rfl
  · rw [numberFrom_str, hs, parseNum_digits_dot a b ha hb hne]; rfl
  · rw [numberFrom_str, hs, parseNum_digits a ha hne]; rfl

/-- Witness for C2 at the concrete input `"€29,000.50"`: the euro sign
and the comma are stripped and the remaining numeral parses to
29000.50. -/
theorem numberFrom_strip_spec_witness :
    numberFrom (.str "€29,000.50")
      = some (.fin ((digitsNat ['2', '9', '0', '0', '0'] : ℚ) +
          (digitsNat ['5', '0'] : ℚ) / 10 ^ (['5', '0'] : List Char).length)) :=
  (numberFrom_strip_spec "€29,000.50").2.1 ['2', '9', '0', '0', '0'] ['5', '0']
    (by decide) (by decide) (by decide) (by decide)

/-- Claim C1: a record yields a Match exactly when its extracted price
is non-null and strictly below 29000 and its extracted range is
non-null and strictly above 600; equality with either threshold, or a
null extraction, excludes it. -/
theorem filter_match_iff (item : JSVal) (p r : JSNum) :
    computeMatches [item] = .ok [⟨item, p, r⟩] ↔
      (extractPrice item = some p ∧ extractRangeKm item = .ok (some r) ∧
        jsLt p (.fin 29000) = true ∧ jsLt (.fin 600) r = true) := by
  simp only [computeMatches]
  cases hR : extractRangeKm item with
  | error e => simp
  | ok rk =>
    cases hP : extractPrice item with
    | none => cases rk <;> simp
    | some p0 =>
      cases rk with
      | none => simp
      | some r0 =>
        by_cases hc :
            (jsLt p0 (.fin TARGET_PRICE_EUR) && jsLt (.fin MIN_RANGE_KM) r0) = true
        · constructor
          · intro hEq
            obtain ⟨h2, h3⟩ : p0 = p ∧ r0 = r := by
              simpa [hc, MatchRec.mk.injEq] using hEq
            subst h2; subst h3
            simp only [Bool.and_eq_true] at hc
            exact ⟨rfl, rfl, hc.1, hc.2⟩
          · rintro ⟨h1, h2, h3, h4⟩
            injection h1 with h1a
            injection h2 with h2a
            injection h2a with h2b
            subst h1a; subst h2b
            simp [hc]
        · constructor
          · intro hEq
            exfalso
            simp [hc] at hEq
          · rintro ⟨h1, h2, h3, h4⟩
            injection h1 with h1a
            injection h2 with h2a
            injection h2a with h2b
            subst h1a; subst h2b
            exact absurd ((Bool.and_eq_true _ _).mpr ⟨h3, h4⟩) hc

/-- Witness for C1: a record priced 25000 with range 650 is accepted
and produces exactly its Match. -/
theorem filter_match_iff_witness :
    computeMatches [.obj [("Price", .num (.fin 25000)),
        ("Range", .num (.fin 650))]]
      = .ok [⟨.obj [("Price", .num (.fin 25000)), ("Range", .num (.fin 650))],
          .fin 25000, .fin 650⟩] :=
  (filter_match_iff _ (.fin 25000) (.fin 650)).mpr
    ⟨rfl, rfl, by decide, by decide⟩

/-- Claim C4: both extraction functions return the first candidate, in
the fixed source order, that coerces to a number, ignoring every later
candidate. -/
theorem extract_first_candidate :
    (∀ (item : JSVal) (ks1 : List String) (k : String) (ks2 : List String)
        (n : JSNum),
      priceKeys = ks1 ++ k :: ks2 →
      (∀ k2 ∈ ks1, numberFrom (getField item k2) = none) →
      numberFrom (getField item k) = some n →
      extractPrice item = some n)
    ∧ (∀ (item : JSVal) (ps1 : List (List String)) (pth : List String)
        (ps2 : List (List String)) (n : JSNum),
      rangePaths = ps1 ++ pth :: ps2 →
      (∀ p2 ∈ ps1, numberFrom (pick item p2) = none) →
      numberFrom (pick item pth) = some n →
      extractRangeKm item = .ok (some n)) := by
  constructor
  · intro item ks1 k ks2 n hsplit hfail hc
    unfold extractPrice
    rw [hsplit, firstCoerced_append item ks1 (k :: ks2) hfail]
    simp [firstCoerced, hc]
  · intro item ps1 pth ps2 n hsplit hfail hc
    apply extractRangeKm_of_path
    rw [hsplit, firstCoercedPath_append item ps1 (pth :: ps2) hfail]
    simp [firstCoercedPath, hc]

/-- Witness for C4: with the first price candidate absent, the second
(`Price`) wins over a coercible later one (`TotalPrice`); with the
first range path absent, `WLTPRange` wins over a coercible
`BatteryRange`. -/
theorem extract_first_candidate_witness :
    extractPrice (.obj [("Price", .num (.fin 27990)),
        ("TotalPrice", .num (.fin 1))]) = some (.fin 27990)
    ∧ extractRangeKm (.obj [("WLTPRange", .num (.fin 614)),
        ("BatteryRange", .num (.fin 500))]) = .ok (some (.fin 614)) :=
  ⟨extract_first_candidate.1 _ ["PurchasePrice"] "Price"
      ["TotalPrice", "TotalPriceAndFees"] _ rfl (by decide) rfl,
   extract_first_candidate.2 _ [["Range"]] ["WLTPRange"]
      [["BatteryRange"], ["EUCombinedRange"], ["Spec", "Range"],
       ["Spec", "WLTPRange"], ["Spec", "EUCombinedRange"],
       ["Spec", "wltp_range"], ["Spec", "range"]] _ rfl (by decide) rfl⟩

lemma jsToString_str (s : String) : jsToString (.str s) = s := rfl

lemma str_append_empty (s : String) : s ++ "" = s := by
  cases s with
  | mk l =>
    show String.mk (l ++ []) = String.mk l
    rw [List.append_nil]

/-- Counterexample to C3 as stated: an already-numeric candidate is
passed through with no finiteness check, so a record whose `Price`
field holds the number Infinity makes `extractPrice` return a
non-finite number. -/
theorem extract_nonfinite_cex :
    extractPrice (.obj [("Price", .num .inf)]) = some .inf
    ∧ JSNum.isFinite .inf = false :=
  ⟨rfl, rfl⟩

/-- Claim C3, amended: numeric candidates pass through unchecked (so a
non-finite numeric field value is returned as-is), textual candidates
are parsed after stripping and rejected unless finite; hence whenever
every candidate value that is numeric is finite — as for JSON-parsed
records — neither extraction returns a non-finite number. -/
theorem extract_nonfinite_amended :
    (∀ n, numberFrom (.num n) = some n)
    ∧ (∀ s n, numberFrom (.str s) = some n → n.isFinite = true)
    ∧ (∀ item n, (∀ k ∈ priceKeys, numFinVal (getField item k) = true) →
        extractPrice item = some n → n.isFinite = true)
    ∧ (∀ item n, (∀ pth ∈ rangePaths, numFinVal (pick item pth) = true) →
        extractRangeKm item = .ok (some n) → n.isFinite = true) := by
  refine ⟨fun n => rfl,
    fun s n h => numberFrom_finite (JSVal.str s) n rfl h,
    fun item n hv h => firstCoerced_finite item priceKeys n
      (fun k hk => hv k hk) h, fun item n hv h => ?_⟩
  cases hp : firstCoercedPath item rangePaths with
  | some m =>
    rw [extractRangeKm_of_path item m hp] at h
    injection h with h1
    injection h1 with h2
    subst h2
    exact firstCoercedPath_finite item rangePaths m hv hp
  | none =>
    rw [extractRangeKm_fallback item hp] at h
    cases ht : trimRaw item with
    | str s =>
      rw [ht] at h
      simp only [rangeFallback] at h
      split_ifs at h with h1 h2 h3 <;>
        first
          | (injection h with ha; injection ha with hb; subst hb; rfl)
          | (injection h with ha; injection ha)
    | num m => rw [ht] at h; exact Except.noConfusion h
    | bool b => rw [ht] at h; exact Except.noConfusion h
    | null => rw [ht] at h; exact Except.noConfusion h
    | undefined => rw [ht] at h; exact Except.noConfusion h
    | obj fs => rw [ht] at h; exact Except.noConfusion h
    | arr l => rw [ht] at h; exact Except.noConfusion h

/-- Witness for the amended C3: a record with finite numeric candidates
yields a finite extracted price. -/
theorem extract_nonfinite_witness : JSNum.isFinite (.fin 25000) = true :=
  extract_nonfinite_amended.2.2.1 (.obj [("Price", .num (.fin 25000))])
    (.fin 25000) (by decide) rfl

/-- Counterexample to C5 as stated: on a record whose nine range
candidates all fail and whose `TrimName` is a truthy non-string (the
number 123), the fallback calls `toLowerCase` on a non-string and
throws a TypeError instead of returning null. -/
theorem range_fallback_cex :
    (∀ pth ∈ rangePaths,
      numberFrom (pick (JSVal.obj [("TrimName", .num (.fin 123))]) pth) = none)
    ∧ extractRangeKm (.obj [("TrimName", .num (.fin 123))])
        = .error "TypeError: trim.toLowerCase is not a function" :=
  ⟨by decide, by decide⟩

/-- Claim C5, amended: when all nine range candidates fail and the
first truthy trim/spec label candidate is a string (or all are falsy,
giving the empty string), the fallback pattern match yields 620 for a
long-range match, else 560 for a performance match, else 490 for a
standard-range/rear-wheel match, else null; when that first truthy
candidate is not a string the extraction instead throws a
TypeError. -/
theorem range_fallback_amended (item : JSVal)
    (hfail : ∀ pth ∈ rangePaths, numberFrom (pick item pth) = none) :
    (∀ s, trimRaw item = .str s →
      extractRangeKm item = .ok (
        if reTest true lrAlts (lowerAscii s) then some (.fin 620)
        else if reTest false perfAlts (lowerAscii s) then some (.fin 560)
        else if reTest true srAlts (lowerAscii s) then some (.fin 490)
        else none))
    ∧ ((∀ s, trimRaw item ≠ .str s) → ∃ e, extractRangeKm item = .error e) := by
  have hnone := firstCoercedPath_none item rangePaths hfail
  constructor
  · intro s hs
    rw [extractRangeKm_fallback item hnone, hs]
    simp only [rangeFallback]
    split_ifs <;> rfl
  · intro hns
    rw [extractRangeKm_fallback item hnone]
    cases ht : trimRaw item with
    | str s => exact absurd ht (hns s)
    | num m => exact ⟨_, rfl⟩
    | bool b => exact ⟨_, rfl⟩
    | null => exact ⟨_, rfl⟩
    | undefined => exact ⟨_, rfl⟩
    | obj fs => exact ⟨_, rfl⟩
    | arr l => exact ⟨_, rfl⟩

/-- Witness for the amended C5: a record whose only field is the label
`"Long Range AWD"` falls through all nine candidates and the fallback
returns the 620 estimate. -/
theorem range_fallback_witness :
    extractRangeKm (.obj [("TrimName", .str "Long Range AWD")])
      = .ok (some (.fin 620)) := by
  rw [(range_fallback_amended (.obj [("TrimName", .str "Long Range AWD")])
    (by decide)).1 "Long Range AWD" rfl]
  decide

/-- Claim C6: a record with no truthy href-like field and no truthy
VIN-like field resolves to the referer page URL with the fragment
`#result`. -/
theorem itemUrl_fallback (item : JSVal)
    (hhref : ∀ k ∈ hrefKeys, truthy (getField item k) = false)
    (hvin : ∀ k ∈ vinKeys, truthy (getField item k) = false) :
    itemUrl item = REFERER_URL ++ "#result" := by
  have h1 : hrefRaw item = getField item "permalink" := by
    unfold hrefRaw
    rw [jsOr_of_falsy _ _ (hhref "PrcUrl" (by decide)),
      jsOr_of_falsy _ _ (hhref "PermaLink" (by decide)),
      jsOr_of_falsy _ _ (hhref "WebUrl" (by decide))]
  have h2 : truthy (hrefRaw item) = false := by
    rw [h1]; exact hhref "permalink" (by decide)
  have h3 : vinRaw item = .str "" := by
    unfold vinRaw
    rw [jsOr_of_falsy _ _ (hvin "VIN" (by decide)),
      jsOr_of_falsy _ _ (hvin "Vin" (by decide)),
      jsOr_of_falsy _ _ (hvin "vin" (by decide))]
  unfold itemUrl
  rw [h2, h3, if_neg (by decide)]
  decide

/-- Witness for C6: the empty record resolves to the referer URL with
the `#result` fragment. -/
theorem itemUrl_fallback_witness :
    itemUrl (.obj []) = REFERER_URL ++ "#result" :=
  itemUrl_fallback (.obj []) (by decide) (by decide)

/-- Counterexample to C7 as stated: an href value starting with the
URL scheme `ftp:` is not returned as-is — the code only recognises
`http:` and `https:`, so the origin is prefixed. -/
theorem itemUrl_scheme_cex :
    startsWithURLScheme "ftp://files.tesla.com/a" = true
    ∧ itemUrl (.obj [("PrcUrl", .str "ftp://files.tesla.com/a")])
        = "https://www.tesla.comftp://files.tesla.com/a"
    ∧ itemUrl (.obj [("PrcUrl", .str "ftp://files.tesla.com/a")])
        ≠ "ftp://files.tesla.com/a" :=
  ⟨by decide, by decide, by decide⟩

/-- Claim C7, amended: when the first truthy href-like field holds a
non-empty string, the result is that string when it starts with
`http:` or `https:` (lower case), and the site origin concatenated
with the unchanged string otherwise — even when the string starts
with another URL scheme. -/
theorem itemUrl_http_amended (item : JSVal) (s : String)
    (h : hrefRaw item = .str s) (hne : s ≠ "") :
    (isHttpAbs s = false → itemUrl item = "https://www.tesla.com" ++ s)
    ∧ (isHttpAbs s = true → itemUrl item = s) := by
  have ht : truthy (JSVal.str s) = true := by simp [truthy, hne]
  constructor <;> intro habs <;>
    simp [itemUrl, h, ht, habs, jsToString_str]

/-- Witness for the amended C7: a relative href gains the site
origin. -/
theorem itemUrl_http_witness :
    itemUrl (.obj [("PrcUrl", .str "/de_DE/inv")])
      = "https://www.tesla.com" ++ "/de_DE/inv" :=
  (itemUrl_http_amended (.obj [("PrcUrl", .str "/de_DE/inv")]) "/de_DE/inv"
    rfl (by decide)).1 (by decide)

/-- Counterexample to C8 as stated: a record whose `Odometer` field is
present and coerces to the number 0 should, per the claim, show the
odometer segment, but the code tests truthiness of the coerced value
and 0 is falsy, so the second line carries no ` • 0 km` segment. -/
theorem summarize_odo_cex :
    numberFrom (odomChain (JSVal.obj [("Odometer", .num (.fin 0))]))
        = some (.fin 0)
    ∧ summLine2 (.obj [("Odometer", .num (.fin 0))]) (.fin 25000) (.fin 650)
        = "25000 € • Reichweite ~650 km"
    ∧ reTest false [litsOf " • 0 km"] "25000 € • Reichweite ~650 km"
        = false := by
  refine ⟨rfl, ?_, by decide⟩
  unfold summLine2
  rw [jsRound_fin 650 650 (by norm_num)]
  decide

/-- Claim C8, amended: the second summary line ends with the
bullet-separated rounded odometer segment exactly when the value
selected by the chain `Odometer ?? Mileage ?? Km` coerces to a truthy
number (non-zero and not NaN); a selected value coercing to 0, or a
non-coercing selected value shadowing a numeric later field, yields no
segment. -/
theorem summarize_odo_amended :
    (∀ (item : JSVal) (p r n : JSNum),
      numberFrom (odomChain item) = some n → numTruthy n = true →
      summLine2 item p r =
        fmtEUR p ++ " • Reichweite ~" ++ numToString (jsRound r) ++ " km" ++
          (" • " ++ numToString (jsRound n) ++ " km"))
    ∧ (∀ (item : JSVal) (p r : JSNum),
      (numberFrom (odomChain item) = none ∨
        ∃ n, numberFrom (odomChain item) = some n ∧ numTruthy n = false) →
      summLine2 item p r =
        fmtEUR p ++ " • Reichweite ~" ++ numToString (jsRound r) ++ " km") := by
  constructor
  · intro item p r n h ht
    unfold summLine2 odoTxt
    rw [h]
    simp [ht]
  · intro item p r h
    unfold summLine2 odoTxt
    rcases h with h | ⟨n, h, ht⟩
    · rw [h, str_append_empty]
    · rw [h]
      simp [ht, str_append_empty]

/-- Witness for the amended C8: a record with odometer 42000 produces
the full second line including the odometer segment. -/
theorem summarize_odo_witness :
    summLine2 (.obj [("Odometer", .num (.fin 42000))]) (.fin 25000) (.fin 650)
      = "25000 € • Reichweite ~650 km • 42000 km" := by
  rw [summarize_odo_amended.1 (.obj [("Odometer", .num (.fin 42000))])
    (.fin 25000) (.fin 650) (.fin 42000) rfl (by decide)]
  rw [jsRound_fin 650 650 (by norm_num), jsRound_fin 42000 42000 (by norm_num)]
  decide

/-- Claim C9: the result list is read from `results` when that key is
present (first, in source order), from `Results` when only the
capitalised key is present, and defaults to the empty array — not an
error — when neither key is present. -/
theorem results_key_spec (data : JSVal) :
    (∀ l : List JSVal, getField data "results" = .arr l →
      resultsOf data = .arr l)
    ∧ (getField data "results" = .undefined →
        ∀ l : List JSVal, getField data "Results" = .arr l →
          resultsOf data = .arr l)
    ∧ (getField data "results" = .undefined →
        getField data "Results" = .undefined →
        resultsOf data = .arr []) := by
  refine ⟨fun l h => ?_, fun h1 l h2 => ?_, fun h1 h2 => ?_⟩
  · unfold resultsOf
    rw [h, jsOr_of_truthy (JSVal.arr l) (getField data "Results") rfl,
      jsOr_of_truthy (JSVal.arr l) (JSVal.arr []) rfl]
  · unfold resultsOf
    rw [h1, h2, jsOr_of_falsy JSVal.undefined (JSVal.arr l) rfl,
      jsOr_of_truthy (JSVal.arr l) (JSVal.arr []) rfl]
  · unfold resultsOf
    rw [h1, h2, jsOr_of_falsy JSVal.undefined JSVal.undefined rfl,
      jsOr_of_falsy JSVal.undefined (JSVal.arr []) rfl]

/-- Witness for C9: a body with neither key yields the empty list. -/
theorem results_key_spec_witness : resultsOf (.obj []) = .arr [] :=
  (results_key_spec (.obj [])).2.2 rfl rfl

/-- Claim C10: the `numberFrom` and `extractPrice` functions of
check.js and of the part_000 variant agree on every input. -/
theorem variant_equiv :
    (∀ v, numberFrom v = V2.numberFrom v)
    ∧ (∀ item, extractPrice item = V2.extractPrice item) :=
  ⟨numberFrom_eq_V2, fun item => by
    unfold extractPrice V2.extractPrice
    exact firstCoerced_eq_V2 item priceKeys⟩

end TeslaAlert
